import Mathlib

/-!
Shallow embedding of the `cf-resolve-gh-ref` worker (src/index.js).

The worker resolves a GitHub ref (branch or tag name) to the sha of the
corresponding commit by fetching the git upload-pack advertisement
(`info/refs?service=git-upload-pack`) and parsing the pkt-line-style body.

Modelling conventions:
* JS strings are Lean `String`s; JS `null`/`undefined` string values are
  `Option String` with `none` for `null`/`undefined`.
* JS string truthiness (`if (s)`, `a || b`) is `jsTruthy` / `jsOr`.
* `String.prototype.split(sep)` with a one-character separator is `jsSplitOn`,
  defined over the character list so that proofs can proceed by list induction.
* `String.prototype.substr(n)` is `jsSubstrFrom`.
* The single outbound `fetch` is modelled by an oracle
  `remote : FetchRequest → FetchResponse`; `resolve` additionally returns the
  list of requests it issued, so "never reaches the remote service" is the
  statement that this list is empty.
* Thrown JS errors are an explicit `ResolveError` value: `typeError` for
  `TypeError` (validation failure, and indexing the `null` result of a failed
  regex match), `error msg status` for `Error` objects with an optional ad hoc
  `status` field.
-/

namespace GhResolve

/-- JS truthiness of a nullable string: `null`/`undefined` and `""` are falsy. -/
def jsTruthy : Option String → Bool
  | none => false
  | some s => s ≠ ""

/-- JS `a || b` on nullable strings: `a` if truthy, else `b`. -/
def jsOr (a b : Option String) : Option String :=
  if jsTruthy a then a else b

/-- Split a character list on a separator character, JS `split` style:
the empty list yields `[[]]`, separators at the ends yield empty parts. -/
def splitCharAux (sep : Char) : List Char → List (List Char)
  | [] => [[]]
  | c :: cs =>
    match splitCharAux sep cs with
    | [] => [[]]
    | h :: t => if c = sep then [] :: h :: t else (c :: h) :: t

/-- Inverse of `splitCharAux`: interleave the separator between the parts. -/
def joinChar (sep : Char) : List (List Char) → List Char
  | [] => []
  | [x] => x
  | x :: xs => x ++ sep :: joinChar sep xs

/-- JS `s.split(sep)` for a one-character separator. -/
def jsSplitOn (sep : Char) (s : String) : List String :=
  (splitCharAux sep s.toList).map (fun l => String.mk l)

/-- JS `s.substr(n)`: the suffix of `s` from (0-based) position `n`. -/
def jsSubstrFrom (s : String) (n : Nat) : String :=
  String.mk (s.toList.drop n)

/-- `pat` is a prefix of `l`. -/
def listStartsWith : List Char → List Char → Bool
  | [], _ => true
  | _ :: _, [] => false
  | p :: ps, c :: cs => p = c && listStartsWith ps cs

/-- JS `s.startsWith(pat)`. -/
def jsStartsWith (s pat : String) : Bool :=
  listStartsWith pat.toList s.toList

/-- JS regex `\s` character class (whitespace as matched by `\S`'s complement). -/
def isJsSpace (c : Char) : Bool :=
  c = ' ' || c = '\t' || c = '\n' || c = '\r' ||
  c.toNat = 0x0b || c.toNat = 0x0c || c.toNat = 0xa0 || c.toNat = 0x1680 ||
  (0x2000 ≤ c.toNat && c.toNat ≤ 0x200a) ||
  c.toNat = 0x2028 || c.toNat = 0x2029 || c.toNat = 0x202f ||
  c.toNat = 0x205f || c.toNat = 0x3000 || c.toNat = 0xfeff

/-- Scan for the first position where the literal `pat` matches and is followed
by at least one non-space character; capture the maximal non-space run after
the literal. This is the JS regex search `/symref=HEAD:(\S+)/` specialised to a
literal followed by a greedy `(\S+)` group. -/
def symrefGo (pat : List Char) : List Char → Option (List Char)
  | [] => none
  | c :: cs =>
    if listStartsWith pat (c :: cs) then
      let run := ((c :: cs).drop pat.length).takeWhile (fun ch => !(isJsSpace ch))
      if run.isEmpty then symrefGo pat cs else some run
    else symrefGo pat cs

/-- `line.match(/symref=HEAD:(\S+)/)` reduced to its first capture group;
`none` when the regex does not match (JS `match` returns `null`). -/
def symrefMatch (line : String) : Option String :=
  (symrefGo "symref=HEAD:".toList line.toList).map (fun cs => String.mk cs)

/-- The base64 alphabet, indexed 0–63. -/
def base64Table : List Char :=
  "ABCDEFGHIJKLMNOPQRSTUVWXYZabcdefghijklmnopqrstuvwxyz0123456789+/".toList

def b64Char (n : Nat) : Char := base64Table.getD n 'A'

/-- Encode up to three bytes as a base64 group with `=` padding. -/
def b64Group : List Nat → List Char
  | a :: b :: c :: _ =>
    [b64Char (a / 4), b64Char (a % 4 * 16 + b / 16), b64Char (b % 16 * 4 + c / 64),
      b64Char (c % 64)]
  | [a, b] =>
    [b64Char (a / 4), b64Char (a % 4 * 16 + b / 16), b64Char (b % 16 * 4), '=']
  | [a] => [b64Char (a / 4), b64Char (a % 4 * 16), '=', '=']
  | [] => []

def btoaAux : List Nat → List Char
  | a :: b :: c :: rest => b64Group [a, b, c] ++ btoaAux rest
  | rest => b64Group rest

/-- JS `btoa` on a Latin-1 string (the worker only feeds it ASCII). -/
def btoa (s : String) : String :=
  String.mk (btoaAux (s.toList.map (fun c => c.toNat % 256)))

/-- Hexadecimal digit for `n < 16`. -/
def hexDigit (n : Nat) : Char := "0123456789abcdef".toList.getD n '0'

/-- JSON string escaping as performed by `JSON.stringify`. -/
def jsonEscapeChar (c : Char) : List Char :=
  if c = '"' then ['\\', '"']
  else if c = '\\' then ['\\', '\\']
  else if c = '\n' then ['\\', 'n']
  else if c = '\r' then ['\\', 'r']
  else if c = '\t' then ['\\', 't']
  else if c.toNat = 0x08 then ['\\', 'b']
  else if c.toNat = 0x0c then ['\\', 'f']
  else if c.toNat < 0x20 then
    ['\\', 'u', '0', '0', hexDigit (c.toNat / 16), hexDigit (c.toNat % 16)]
  else [c]

def jsonEscape (s : String) : String :=
  String.mk (s.toList.flatMap jsonEscapeChar)

/-- A resolved reference: `sha` and `fqRef` as produced by the worker.
`none` stands for the JS `undefined` an out-of-range array index yields. -/
structure ResolutionResult where
  sha : Option String
  fqRef : Option String
  deriving Repr, DecidableEq

/-- One JSON member `"k":"v"`, or nothing when the value is `undefined`
(`JSON.stringify` drops properties whose value is `undefined`). -/
def jsonField (k : String) : Option String → List String
  | none => []
  | some v => ["\"" ++ k ++ "\":\"" ++ jsonEscape v ++ "\""]

/-- `JSON.stringify({sha, fqRef})`. -/
def stringifyResult (r : ResolutionResult) : String :=
  "\x7b" ++ String.intercalate "," (jsonField "sha" r.sha ++ jsonField "fqRef" r.fqRef)
    ++ "\x7d"

/-- The argument object of `resolve` in src/index.js. -/
structure ResolveParams where
  owner : Option String
  repo : Option String
  ref : Option String
  token : Option String
  deriving Repr, DecidableEq

/-- An outbound request as issued by `fetch` in `resolve`. -/
structure FetchRequest where
  url : String
  authorization : Option String
  deriving Repr, DecidableEq

/-- The observable part of the `fetch` response: HTTP status and body text. -/
structure FetchResponse where
  status : Nat
  body : String
  deriving Repr, DecidableEq

/-- `Response.ok`: status in the inclusive range 200–299. -/
def respOk (r : FetchResponse) : Bool :=
  200 ≤ r.status && r.status ≤ 299

/-- A thrown JS error: `TypeError` or `Error` with optional `status` field. -/
inductive ResolveError where
  | typeError (message : String)
  | error (message : String) (status : Option Nat)
  deriving Repr, DecidableEq

instance {ε α : Type} [DecidableEq ε] [DecidableEq α] : DecidableEq (Except ε α) :=
  fun x y =>
    match x, y with
    | .ok a, .ok b => if h : a = b then .isTrue (by rw [h]) else .isFalse (by simp [h])
    | .error a, .error b => if h : a = b then .isTrue (by rw [h]) else .isFalse (by simp [h])
    | .ok _, .error _ => .isFalse (by simp)
    | .error _, .ok _ => .isFalse (by simp)

/-- JS truthiness of the `err.status` field (`undefined` and `0` are falsy). -/
def statusTruthy : Option Nat → Bool
  | none => false
  | some n => n ≠ 0

/-- Search terms for a truthy `ref` (src/index.js lines 127–136): the ref
itself when fully qualified, otherwise both the branch and the tag name. -/
def refSearchTerms (r : String) : List String :=
  if jsStartsWith r "refs/" then [r]
  else ["refs/heads/" ++ r, "refs/tags/" ++ r]

/-- The filter predicate of src/index.js lines 147–149: exactly two
space-separated parts and the second part is one of the search terms. -/
def matchRow (searchTerms : List String) (row : String) : Bool :=
  let parts := jsSplitOn ' ' row
  parts.length = 2 && searchTerms.contains (parts.getD 1 "")

/-- The map step of src/index.js line 150: `row.substr(4).split(' ')`. -/
def mapRow (row : String) : List String :=
  jsSplitOn ' ' (jsSubstrFrom row 4)

/-- The `{sha, fqRef}` object built from the first surviving row
(src/index.js line 151); out-of-range indexing gives `undefined` (`none`). -/
def rowToResult (row : String) : ResolutionResult :=
  { sha := (mapRow row).get? 0, fqRef := (mapRow row).get? 1 }

/-- Search-term construction combined over both call sites: the terms for a
truthy `ref` (lines 127–136), else the capture of the symref regex on the
second line (line 143); `none` when the regex match is `null`, in which case
indexing it throws a `TypeError`. -/
def termsOf (ref : Option String) (line1 : String) : Option (List String) :=
  if jsTruthy ref then some (refSearchTerms (ref.getD ""))
  else (symrefMatch line1).map (fun t => [t])

/-- src/index.js lines 125–151: parse the advertisement body and match. -/
def resolveBody (p : ResolveParams) (data : String) :
    Except ResolveError (Option ResolutionResult) :=
  let lines := jsSplitOn '\n' data
  if lines.length < 3 then
    .error (.error ("corrupted response: " ++ String.intercalate "," lines) none)
  else
    match termsOf p.ref (lines.getD 1 "") with
    | none =>
      -- `lines[1].match(...)[1]` with a `null` match result (V8 message text)
      .error (.typeError "Cannot read properties of null (reading \x271\x27)")
    | some searchTerms =>
      let result := ((lines.drop 2).filter (matchRow searchTerms)).map mapRow
      .ok (if result.length ≠ 0 then
            some { sha := (result.getD 0 []).get? 0, fqRef := (result.getD 0 []).get? 1 }
          else none)

/-- The URL and optional Basic-auth header of the single outbound request
(src/index.js lines 98–103). -/
def fetchRequestOf (p : ResolveParams) : FetchRequest :=
  { url := "https://github.com/" ++ p.owner.getD "" ++ "/" ++ p.repo.getD ""
      ++ ".git/info/refs?service=git-upload-pack"
    authorization :=
      if jsTruthy p.token then
        some ("Basic " ++ btoa ("any_user:" ++ p.token.getD ""))
      else none }

/-- src/index.js lines 88–152 (`resolve`): validation, the outbound call,
status handling and body parsing. The second component lists the outbound
requests actually issued. -/
def resolve (p : ResolveParams) (remote : FetchRequest → FetchResponse) :
    Except ResolveError (Option ResolutionResult) × List FetchRequest :=
  if !jsTruthy p.owner || !jsTruthy p.repo then
    (.error (.typeError "owner and repo are mandatory parameters"), [])
  else
    let req := fetchRequestOf p
    let resp := remote req
    if !respOk resp then
      if (resp.status = 401 && !jsTruthy p.token) || resp.status = 404 then
        (.error (.error ("repository not found: " ++ p.owner.getD "" ++ "/"
          ++ p.repo.getD "") (some 404)), [req])
      else
        (.error (.error ("failed to fetch git repo info (status: "
          ++ toString resp.status ++ ", body: " ++ resp.body ++ ")")
          (some resp.status)), [req])
    else
      (resolveBody p resp.body, [req])

/-- The inbound HTTP request, reduced to what the worker reads: the decoded
query parameters (in order) and the headers. -/
structure InboundRequest where
  query : List (String × String)
  headers : List (String × String)
  deriving Repr, DecidableEq

/-- `URLSearchParams.get`: first value for the name, else `null`. -/
def getParam (q : List (String × String)) (name : String) : Option String :=
  (q.find? (fun kv => kv.1 = name)).map (fun kv => kv.2)

/-- ASCII lowercasing of one character (header names are ASCII). -/
def lowerChar (c : Char) : Char :=
  if 'A' ≤ c && c ≤ 'Z' then Char.ofNat (c.toNat + 32) else c

/-- ASCII lowercasing, as the Headers API applies to header names. -/
def lowerAscii (s : String) : String :=
  String.mk (s.toList.map lowerChar)

/-- `Headers.get`: case-insensitive lookup, `null` when absent. -/
def getHeader (hs : List (String × String)) (name : String) : Option String :=
  (hs.find? (fun kv => lowerAscii kv.1 = lowerAscii name)).map (fun kv => kv.2)

/-- src/index.js line 41: the credential handed to `resolve` —
`params.get(GITHUB_TOKEN) || request.headers.get(x-github-token)`. -/
def tokenOf (req : InboundRequest) : Option String :=
  jsOr (getParam req.query "GITHUB_TOKEN") (getHeader req.headers "x-github-token")

/-- src/index.js lines 38–50: the argument object passed to `resolve`. -/
def requestParams (req : InboundRequest) : ResolveParams :=
  { owner := getParam req.query "owner"
    repo := getParam req.query "repo"
    ref := getParam req.query "ref"
    token := tokenOf req }

/-- The worker's HTTP response. -/
structure HttpResponse where
  status : Nat
  contentType : String
  body : String
  deriving Repr, DecidableEq

/-- src/index.js lines 51–85: the `.then`/`.catch` mapping from the resolution
outcome or thrown error to an HTTP response. -/
def respondWith : Except ResolveError (Option ResolutionResult) → HttpResponse
  | outcome =>
  match outcome with
  | .ok (some result) =>
    { status := 200, contentType := "application/json", body := stringifyResult result }
  | .ok none =>
    { status := 404, contentType := "text/plain", body := "ref not found" }
  | .error (.typeError msg) =>
    { status := 400, contentType := "text/plain", body := msg }
  | .error (.error msg st) =>
    if statusTruthy st then
      { status := if 500 ≤ st.getD 0 && st.getD 0 ≤ 599 then 502 else st.getD 0
        contentType := "text/plain"
        body := "failed to fetch git repo info (status: " ++ toString (st.getD 0)
          ++ ", message: " ++ msg ++ ")" }
    else
      -- the template literal stringifies the Error object as `Error: <message>`
      { status := 500, contentType := "text/plain"
        body := "failed to fetch git repo info: Error: " ++ msg ++ ")" }

/-- src/index.js lines 34–86 (`handleRequest`): extract the parameters, run
`resolve`, and map its outcome or error to an HTTP response. -/
def handleRequest (req : InboundRequest) (remote : FetchRequest → FetchResponse) :
    HttpResponse :=
  respondWith (resolve (requestParams req) remote).1

/-- A post-header advertisement line for the fully-qualified ref `t`:
exactly two space-separated parts whose second part is `t`. -/
def isRefLine (t row : String) : Bool :=
  (jsSplitOn ' ' row).length = 2 && (jsSplitOn ' ' row).getD 1 "" = t

/-! ## Supporting lemmas -/

theorem toList_mk (l : List Char) : (String.mk l).toList = l := rfl

theorem length_mk (l : List Char) : (String.mk l).length = l.length := rfl

theorem splitCharAux_ne_nil (sep : Char) (l : List Char) : splitCharAux sep l ≠ [] := by
  induction l with
  | nil => simp [splitCharAux]
  | cons c cs ih =>
    simp only [splitCharAux]
    cases h : splitCharAux sep cs with
    | nil => simp
    | cons hd tl => by_cases hc : c = sep <;> simp [hc]

theorem joinChar_splitCharAux (sep : Char) (l : List Char) :
    joinChar sep (splitCharAux sep l) = l := by
  induction l with
  | nil => rfl
  | cons c cs ih =>
    simp only [splitCharAux]
    cases h : splitCharAux sep cs with
    | nil => exact absurd h (splitCharAux_ne_nil sep cs)
    | cons hd tl =>
      rw [h] at ih
      by_cases hc : c = sep
      · subst hc
        simp only [if_pos rfl, joinChar]
        cases tl with
        | nil => simp [joinChar] at ih ⊢; simp [ih]
        | cons t2 ts => simp [joinChar] at ih ⊢; simp [ih]
      · simp only [if_neg hc]
        cases tl with
        | nil =>
          simp only [joinChar] at ih ⊢
          rw [ih]
        | cons t2 ts =>
          simp only [joinChar] at ih ⊢
          simp [ih]

theorem not_mem_of_mem_splitCharAux (sep : Char) (l : List Char) (part : List Char)
    (h : part ∈ splitCharAux sep l) : sep ∉ part := by
  induction l generalizing part with
  | nil =>
    simp [splitCharAux] at h
    subst h
    simp
  | cons c cs ih =>
    simp only [splitCharAux] at h
    cases hs : splitCharAux sep cs with
    | nil => exact absurd hs (splitCharAux_ne_nil sep cs)
    | cons hd tl =>
      rw [hs] at h
      by_cases hc : c = sep
      · simp only [if_pos hc] at h
        rcases List.mem_cons.mp h with h1 | h2
        · subst h1; simp
        · exact ih part (by rw [hs]; exact h2)
      · simp only [if_neg hc] at h
        rcases List.mem_cons.mp h with h1 | h2
        · subst h1
          intro hmem
          rcases List.mem_cons.mp hmem with h3 | h4
          · exact hc h3.symm
          · exact ih hd (by rw [hs]; exact List.mem_cons_self hd tl) h4
        · exact ih part (by rw [hs]; exact List.mem_cons_of_mem hd h2)

theorem splitCharAux_eq_pair {sep : Char} {l x y : List Char}
    (h : splitCharAux sep l = [x, y]) :
    l = x ++ sep :: y ∧ sep ∉ x ∧ sep ∉ y := by
  refine ⟨?_, ?_, ?_⟩
  · have hj := joinChar_splitCharAux sep l
    rw [h] at hj
    simpa [joinChar] using hj.symm
  · exact not_mem_of_mem_splitCharAux sep l x (by rw [h]; simp)
  · exact not_mem_of_mem_splitCharAux sep l y (by rw [h]; simp)

theorem splitCharAux_of_not_mem {sep : Char} {y : List Char} (h : sep ∉ y) :
    splitCharAux sep y = [y] := by
  induction y with
  | nil => rfl
  | cons c cs ih =>
    have hc : ¬ c = sep := by
      intro e; subst e; exact h (List.mem_cons_self c cs)
    have hcs : sep ∉ cs := fun m => h (List.mem_cons_of_mem _ m)
    simp only [splitCharAux, ih hcs]
    simp [hc]

theorem splitCharAux_append {sep : Char} {x : List Char} (rest : List Char)
    (h : sep ∉ x) :
    splitCharAux sep (x ++ sep :: rest) = x :: splitCharAux sep rest := by
  induction x with
  | nil =>
    simp only [List.nil_append, splitCharAux]
    cases hs : splitCharAux sep rest with
    | nil => exact absurd hs (splitCharAux_ne_nil sep rest)
    | cons hd tl => simp
  | cons a x ih =>
    have ha : ¬ a = sep := by
      intro e; subst e; exact h (List.mem_cons_self a x)
    have hx : sep ∉ x := fun m => h (List.mem_cons_of_mem _ m)
    simp only [List.cons_append, splitCharAux, List.append_eq]
    rw [ih hx]
    simp [ha]

theorem filter_eq_cons_of_find? {α : Type} (p : α → Bool) (l : List α) (a : α)
    (h : l.find? p = some a) : ∃ t, l.filter p = a :: t := by
  induction l with
  | nil => simp [List.find?] at h
  | cons b l ih =>
    cases hb : p b with
    | true =>
      simp only [List.find?, hb] at h
      obtain rfl := Option.some.inj h
      exact ⟨l.filter p, by simp [List.filter, hb]⟩
    | false =>
      simp only [List.find?, hb] at h
      obtain ⟨t, ht⟩ := ih h
      exact ⟨t, by simp [List.filter, hb, ht]⟩

/-- If the split of a row on spaces is `[a, b]` with `a` at least four
characters long, then dropping the first four characters of the row and
splitting again yields `[a` without its first four characters`, b]`. -/
theorem mapRow_eq {row a b : String} (hsplit : jsSplitOn ' ' row = [a, b])
    (hlen : 4 ≤ a.length) : mapRow row = [jsSubstrFrom a 4, b] := by
  unfold jsSplitOn at hsplit
  cases hs : splitCharAux ' ' row.toList with
  | nil => exact absurd hs (splitCharAux_ne_nil _ _)
  | cons x xs =>
    cases xs with
    | nil => rw [hs] at hsplit; simp at hsplit
    | cons y ys =>
      cases ys with
      | cons z zs => rw [hs] at hsplit; simp at hsplit
      | nil =>
        rw [hs] at hsplit
        simp only [List.map] at hsplit
        have ha : String.mk x = a := by injection hsplit
        have hb : String.mk y = b := by
          have h2 := hsplit
          injection h2 with h2a h2b
          injection h2b
        obtain ⟨hrow, hxs, hys⟩ := splitCharAux_eq_pair hs
        subst ha; subst hb
        unfold mapRow jsSubstrFrom jsSplitOn
        rw [toList_mk, hrow,
          List.drop_append_of_le_length (by simpa [length_mk] using hlen)]
        rw [splitCharAux_append y (fun m => hxs (List.drop_subset _ _ m))]
        rw [splitCharAux_of_not_mem hys]
        simp [toList_mk]

theorem matchRow_pair (h t row : String) :
    matchRow [h, t] row = (matchRow [h] row || matchRow [t] row) := by
  rw [Bool.eq_iff_iff]
  simp only [matchRow, Bool.and_eq_true, Bool.or_eq_true, decide_eq_true_iff,
    List.contains_cons, List.contains_nil, List.elem_eq_mem, beq_iff_eq,
    Bool.or_false, List.mem_cons, List.mem_singleton, List.not_mem_nil]
  tauto

theorem matchRow_singleton_ref (r row : String) (h : matchRow [r] row = true) :
    (jsSplitOn ' ' row).getD 1 "" = r := by
  simp only [matchRow, Bool.and_eq_true, decide_eq_true_iff, List.contains_cons,
    List.contains_nil, beq_iff_eq, Bool.or_false] at h
  exact h.2

/-- Parsing a successful body: when the split has a head, a second line and a
non-empty remainder, and the search terms are built successfully, the result
is the first post-header row matched by the terms. -/
theorem resolveBody_eq_find (p : ResolveParams) (data l0 l1 : String)
    (rest terms : List String)
    (hsplit : jsSplitOn '\n' data = l0 :: l1 :: rest)
    (hterms : termsOf p.ref l1 = some terms)
    (hne : rest ≠ []) :
    resolveBody p data = .ok (Option.map rowToResult (rest.find? (matchRow terms))) := by
  have hpos : 0 < rest.length := List.length_pos.mpr hne
  unfold resolveBody
  rw [hsplit]
  rw [if_neg (by simp only [List.length_cons]; omega)]
  have hgd : (l0 :: l1 :: rest).getD 1 "" = l1 := rfl
  rw [hgd, hterms]
  have hdrop : (l0 :: l1 :: rest).drop 2 = rest := rfl
  rw [hdrop]
  cases hf : rest.find? (matchRow terms) with
  | none =>
    have hfil : rest.filter (matchRow terms) = [] := by
      rw [List.filter_eq_nil_iff]
      intro a ha
      exact fun hpa => (List.find?_eq_none.mp hf a ha) hpa
    simp [hfil]
  | some row =>
    obtain ⟨tl, htl⟩ := filter_eq_cons_of_find? _ _ _ hf
    simp [htl, rowToResult]

/-- With truthy `owner` and `repo` and a successful remote response, `resolve`
issues exactly its one request and parses the body. -/
theorem resolve_ok (p : ResolveParams) (remote : FetchRequest → FetchResponse)
    (ho : jsTruthy p.owner = true) (hr : jsTruthy p.repo = true)
    (hok : respOk (remote (fetchRequestOf p)) = true) :
    resolve p remote = (resolveBody p (remote (fetchRequestOf p)).body,
      [fetchRequestOf p]) := by
  unfold resolve
  simp [ho, hr, hok]

theorem respondWith_error_status (msg : String) (s : Nat) (hs : s ≠ 0) :
    respondWith (.error (.error msg (some s))) =
      { status := if 500 ≤ s && s ≤ 599 then 502 else s
        contentType := "text/plain"
        body := "failed to fetch git repo info (status: " ++ toString s
          ++ ", message: " ++ msg ++ ")" } := by
  simp [respondWith, statusTruthy, hs]

theorem respondWith_error_none (msg : String) :
    respondWith (.error (.error msg none)) =
      { status := 500
        contentType := "text/plain"
        body := "failed to fetch git repo info: Error: " ++ msg ++ ")" } := by
  simp [respondWith, statusTruthy]

/-- With truthy `owner`/`repo`, a non-success response whose status is neither
404 nor a credential-less 401 surfaces as an `Error` carrying that status. -/
theorem resolve_notOk (p : ResolveParams) (remote : FetchRequest → FetchResponse)
    (ho : jsTruthy p.owner = true) (hr : jsTruthy p.repo = true)
    (hok : respOk (remote (fetchRequestOf p)) = false)
    (hcond : (((remote (fetchRequestOf p)).status = 401 && !jsTruthy p.token)
      || (remote (fetchRequestOf p)).status = 404) = false) :
    resolve p remote = (.error (.error ("failed to fetch git repo info (status: "
      ++ toString (remote (fetchRequestOf p)).status ++ ", body: "
      ++ (remote (fetchRequestOf p)).body ++ ")")
      (some (remote (fetchRequestOf p)).status)), [fetchRequestOf p]) := by
  unfold resolve
  simp [ho, hr, hok, hcond]

/-! ## Claims -/

/-- C1 (counterexample): when both the `GITHUB_TOKEN` query parameter and the
`x-github-token` header are present and non-empty, the credential passed to
the resolver is the parameter value, not the header value as claimed. -/
theorem c1_counterexample :
    tokenOf { query := [("owner", "o"), ("repo", "r"), ("GITHUB_TOKEN", "paramtok")]
              headers := [("x-github-token", "headertok")] } = some "paramtok" ∧
    (requestParams { query := [("owner", "o"), ("repo", "r"), ("GITHUB_TOKEN", "paramtok")]
                     headers := [("x-github-token", "headertok")] }).token
      = some "paramtok" ∧
    (some "paramtok" : Option String) ≠ some "headertok" :=
  ⟨by decide, by decide, by decide⟩

/-- C1 (amended): the credential passed to the resolver is the `GITHUB_TOKEN`
query parameter value whenever that parameter is present and non-empty; the
`x-github-token` header value is used only when the parameter is absent or
empty. -/
theorem c1_token_source (req : InboundRequest) :
    (∀ pv : String, getParam req.query "GITHUB_TOKEN" = some pv → pv ≠ "" →
      (requestParams req).token = some pv) ∧
    (jsTruthy (getParam req.query "GITHUB_TOKEN") = false →
      (requestParams req).token = getHeader req.headers "x-github-token") := by
  constructor
  · intro pv hp hne
    simp [requestParams, tokenOf, jsOr, hp, jsTruthy, hne]
  · intro hf
    simp [requestParams, tokenOf, jsOr, hf]

/-- C1 (witness): the amended claim applied to a concrete request carrying
both credential sources. -/
theorem c1_token_source_witness :
    (requestParams { query := [("GITHUB_TOKEN", "ptok")]
                     headers := [("x-github-token", "htok")] }).token = some "ptok" :=
  (c1_token_source { query := [("GITHUB_TOKEN", "ptok")]
                     headers := [("x-github-token", "htok")] }).1
    "ptok" (by decide) (by decide)

/-- C2: for a supplied short ref name with both a branch line and a tag line
present after the header, resolution returns the result built from whichever
matching line appears first in the advertisement, a choice that does not
depend on the insertion order of the two search terms. -/
theorem c2_short_ref_first_match (p : ResolveParams)
    (remote : FetchRequest → FetchResponse) (r l0 l1 row : String)
    (rest : List String)
    (ho : jsTruthy p.owner = true) (hrp : jsTruthy p.repo = true)
    (href : p.ref = some r) (hrne : r ≠ "")
    (hshort : jsStartsWith r "refs/" = false)
    (hok : respOk (remote (fetchRequestOf p)) = true)
    (hbody : jsSplitOn '\n' (remote (fetchRequestOf p)).body = l0 :: l1 :: rest)
    (_hheads : rest.any (matchRow ["refs/heads/" ++ r]) = true)
    (_htags : rest.any (matchRow ["refs/tags/" ++ r]) = true)
    (hfirst : rest.find? (fun row2 =>
        matchRow ["refs/heads/" ++ r] row2 || matchRow ["refs/tags/" ++ r] row2)
      = some row) :
    (resolve p remote).1 = .ok (some (rowToResult row)) := by
  have hterms : termsOf p.ref l1 = some ["refs/heads/" ++ r, "refs/tags/" ++ r] := by
    simp [termsOf, href, jsTruthy, hrne, refSearchTerms, hshort]
  have hne : rest ≠ [] := by
    intro he
    rw [he] at hfirst
    simp [List.find?] at hfirst
  have hpair : matchRow ["refs/heads/" ++ r, "refs/tags/" ++ r] =
      fun row2 => matchRow ["refs/heads/" ++ r] row2
        || matchRow ["refs/tags/" ++ r] row2 :=
    funext (fun row2 => matchRow_pair _ _ row2)
  have h1 := resolve_ok p remote ho hrp hok
  rw [h1]
  have h2 := resolveBody_eq_find p (remote (fetchRequestOf p)).body l0 l1 rest
    ["refs/heads/" ++ r, "refs/tags/" ++ r] hbody hterms hne
  rw [hpair] at h2
  rw [hfirst] at h2
  exact h2

/-- C2 (witness): a short ref where the tag line precedes the branch line;
the tag line wins. -/
theorem c2_short_ref_first_match_witness :
    (resolve { owner := some "adobe", repo := some "demo", ref := some "main",
               token := none }
      (fun _ => { status := 200, body := "line0\nline1\n0041aaa refs/tags/main\n0042bbb refs/heads/main\n0000" })).1
    = .ok (some (rowToResult "0041aaa refs/tags/main")) :=
  c2_short_ref_first_match
    { owner := some "adobe", repo := some "demo", ref := some "main", token := none }
    (fun _ => { status := 200, body := "line0\nline1\n0041aaa refs/tags/main\n0042bbb refs/heads/main\n0000" })
    "main" "line0" "line1" "0041aaa refs/tags/main"
    ["0041aaa refs/tags/main", "0042bbb refs/heads/main", "0000"]
    (by decide) (by decide) (by decide) (by decide) (by decide) (by decide)
    (by decide) (by decide) (by decide) (by decide)

/-- C3 (counterexample): a matching line whose first space-separated part has
fewer than 4 characters; the code slices 4 characters off the whole row, so
the returned sha is not the first part with its prefix removed and the fqRef
is `undefined` rather than the second part verbatim. -/
theorem c3_counterexample :
    matchRow ["refs/heads/x", "refs/tags/x"] "ab refs/heads/x" = true ∧
    resolveBody { owner := some "o", repo := some "r", ref := some "x", token := none }
        "h1\nh2\nab refs/heads/x" =
      .ok (some { sha := some "efs/heads/x", fqRef := none }) ∧
    (some "efs/heads/x" : Option String) ≠ some (jsSubstrFrom "ab" 4) ∧
    (none : Option String) ≠ some "refs/heads/x" :=
  ⟨by decide, by decide, by decide, by decide⟩

/-- C3 (amended): a post-header line is a match candidate exactly when its
space-split has exactly two parts and the second part is in the search-term
set; for a matching line whose first part has at least 4 characters, the
mapped value is the first part with its 4-character pkt-line prefix removed
together with the second part verbatim. -/
theorem c3_candidate_and_extraction (terms : List String) (row : String) :
    (matchRow terms row = true ↔
      ∃ a b : String, jsSplitOn ' ' row = [a, b] ∧ terms.contains b = true) ∧
    (∀ a b : String, jsSplitOn ' ' row = [a, b] → 4 ≤ a.length →
      mapRow row = [jsSubstrFrom a 4, b]) := by
  constructor
  · constructor
    · intro hm
      simp only [matchRow, Bool.and_eq_true, decide_eq_true_iff] at hm
      obtain ⟨hlen2, hcont⟩ := hm
      obtain ⟨a, b, hab⟩ := List.length_eq_two.mp hlen2
      refine ⟨a, b, hab, ?_⟩
      rw [hab] at hcont
      simpa using hcont
    · rintro ⟨a, b, hab, hcont⟩
      have hb : b ∈ terms := by simpa using hcont
      simp [matchRow, hab, hb]
  · intro a b hab hlen
    exact mapRow_eq hab hlen

/-- C3 (witness): the amended claim applied to a well-formed pkt-line row. -/
theorem c3_candidate_and_extraction_witness :
    mapRow "0055abc refs/heads/main" = [jsSubstrFrom "0055abc" 4, "refs/heads/main"] :=
  (c3_candidate_and_extraction ["refs/heads/main"] "0055abc refs/heads/main").2
    "0055abc" "refs/heads/main" (by decide) (by decide)

/-- C4: a remote 404, or a 401 with no credential supplied, surfaces to the
caller as a failure carrying status 404 and the message
`repository not found: owner/repo`. -/
theorem c4_repository_not_found (p : ResolveParams)
    (remote : FetchRequest → FetchResponse) (o rp : String)
    (ho : p.owner = some o) (hone : o ≠ "")
    (hr : p.repo = some rp) (hrne : rp ≠ "")
    (hst : (remote (fetchRequestOf p)).status = 404 ∨
      ((remote (fetchRequestOf p)).status = 401 ∧ jsTruthy p.token = false)) :
    (resolve p remote).1 =
      .error (.error ("repository not found: " ++ o ++ "/" ++ rp) (some 404)) ∧
    (respondWith (resolve p remote).1).status = 404 := by
  have hok : respOk (remote (fetchRequestOf p)) = false := by
    unfold respOk
    rcases hst with h | ⟨h, _⟩ <;> rw [h] <;> decide
  have hcond : (((remote (fetchRequestOf p)).status = 401 && !jsTruthy p.token)
      || (remote (fetchRequestOf p)).status = 404) = true := by
    rcases hst with h | ⟨h, ht⟩
    · rw [h]; simp
    · rw [h, ht]; simp
  have hto : jsTruthy p.owner = true := by rw [ho]; simp [jsTruthy, hone]
  have htr : jsTruthy p.repo = true := by rw [hr]; simp [jsTruthy, hrne]
  have hres : resolve p remote = (.error (.error ("repository not found: "
      ++ p.owner.getD "" ++ "/" ++ p.repo.getD "") (some 404)), [fetchRequestOf p]) := by
    unfold resolve
    simp [hto, htr, hok, hcond]
  rw [ho, hr] at hres
  simp only [Option.getD_some] at hres
  have hres1 : (resolve p remote).1 =
      .error (.error ("repository not found: " ++ o ++ "/" ++ rp) (some 404)) := by
    rw [hres]
  refine ⟨hres1, ?_⟩
  rw [hres1, respondWith_error_status _ 404 (by decide)]
  simp

/-- C4 (witness): a concrete 404 from the remote service. -/
theorem c4_repository_not_found_witness :
    (resolve { owner := some "adobe", repo := some "secret", ref := none, token := none }
      (fun _ => { status := 404, body := "nf" })).1 =
      .error (.error ("repository not found: " ++ "adobe" ++ "/" ++ "secret")
        (some 404)) :=
  (c4_repository_not_found
    { owner := some "adobe", repo := some "secret", ref := none, token := none }
    (fun _ => { status := 404, body := "nf" })
    "adobe" "secret" (by decide) (by decide) (by decide) (by decide)
    (Or.inl (by decide))).1

/-- C5: a supplied ref that starts with `refs/` is the sole search term, so
resolution returns the first advertisement line whose second part equals the
ref exactly, and a line can match only when its reference name equals the
supplied ref. -/
theorem c5_fully_qualified_exact (p : ResolveParams)
    (remote : FetchRequest → FetchResponse) (r l0 l1 : String) (rest : List String)
    (ho : jsTruthy p.owner = true) (hrp : jsTruthy p.repo = true)
    (href : p.ref = some r) (hfq : jsStartsWith r "refs/" = true)
    (hok : respOk (remote (fetchRequestOf p)) = true)
    (hbody : jsSplitOn '\n' (remote (fetchRequestOf p)).body = l0 :: l1 :: rest)
    (hne : rest ≠ []) :
    (resolve p remote).1 =
      .ok (Option.map rowToResult (rest.find? (matchRow [r]))) ∧
    ∀ row : String, matchRow [r] row = true → (jsSplitOn ' ' row).getD 1 "" = r := by
  have hrne : r ≠ "" := by
    intro he
    subst he
    exact absurd hfq (by decide)
  have hterms : termsOf p.ref l1 = some [r] := by
    simp [termsOf, href, jsTruthy, hrne, refSearchTerms, hfq]
  have h1 := resolve_ok p remote ho hrp hok
  rw [h1]
  exact ⟨resolveBody_eq_find p _ l0 l1 rest [r] hbody hterms hne,
    fun row hm => matchRow_singleton_ref r row hm⟩

/-- C5 (witness): `refs/tags/v1.0.0` resolves against the tag line even
though a branch of the same short name is advertised first. -/
theorem c5_fully_qualified_exact_witness :
    (resolve { owner := some "own", repo := some "rep",
               ref := some "refs/tags/v1.0.0", token := none }
      (fun _ => { status := 200, body := "h0\nh1\n0040abc refs/heads/v1.0.0\n0041def refs/tags/v1.0.0\n0000" })).1
    = .ok (Option.map rowToResult
        ((["0040abc refs/heads/v1.0.0", "0041def refs/tags/v1.0.0", "0000"] :
          List String).find? (matchRow ["refs/tags/v1.0.0"]))) :=
  (c5_fully_qualified_exact
    { owner := some "own", repo := some "rep",
      ref := some "refs/tags/v1.0.0", token := none }
    (fun _ => { status := 200, body := "h0\nh1\n0040abc refs/heads/v1.0.0\n0041def refs/tags/v1.0.0\n0000" })
    "refs/tags/v1.0.0" "h0" "h1"
    ["0040abc refs/heads/v1.0.0", "0041def refs/tags/v1.0.0", "0000"]
    (by decide) (by decide) (by decide) (by decide) (by decide) (by decide)
    (by decide)).1

/-- C6: a missing or empty owner or repo makes resolution fail with the
validation TypeError before any remote request is issued, and the
caller-visible status is 400. -/
theorem c6_validation_before_remote (req : InboundRequest)
    (remote : FetchRequest → FetchResponse)
    (h : jsTruthy (getParam req.query "owner") = false ∨
      jsTruthy (getParam req.query "repo") = false) :
    (resolve (requestParams req) remote).2 = [] ∧
    (resolve (requestParams req) remote).1 =
      .error (.typeError "owner and repo are mandatory parameters") ∧
    (handleRequest req remote).status = 400 := by
  have hres : resolve (requestParams req) remote =
      (.error (.typeError "owner and repo are mandatory parameters"), []) := by
    unfold resolve
    rcases h with h | h <;> simp [requestParams, h]
  refine ⟨by rw [hres], by rw [hres], ?_⟩
  unfold handleRequest
  rw [hres]
  rfl

/-- C6 (witness): a request without an owner parameter is rejected with 400
and no outbound request. -/
theorem c6_validation_before_remote_witness :
    (handleRequest { query := [("repo", "r")], headers := [] }
      (fun _ => { status := 200, body := "x\ny\nz" })).status = 400 :=
  (c6_validation_before_remote { query := [("repo", "r")], headers := [] }
    (fun _ => { status := 200, body := "x\ny\nz" })
    (Or.inl (by decide))).2.2

/-- C7: a remote failure carrying a nonzero status that is neither 404 nor a
credential-less 401 surfaces with that status, except that 5xx statuses are
remapped to 502. -/
theorem c7_status_passthrough (req : InboundRequest)
    (remote : FetchRequest → FetchResponse) (s : Nat)
    (ho : jsTruthy (requestParams req).owner = true)
    (hr : jsTruthy (requestParams req).repo = true)
    (hs : (remote (fetchRequestOf (requestParams req))).status = s)
    (hok : respOk (remote (fetchRequestOf (requestParams req))) = false)
    (h404 : s ≠ 404)
    (h401 : s = 401 → jsTruthy (requestParams req).token = true)
    (h0 : s ≠ 0) :
    (handleRequest req remote).status = if 500 ≤ s && s ≤ 599 then 502 else s := by
  have hcond : (((remote (fetchRequestOf (requestParams req))).status = 401
      && !jsTruthy (requestParams req).token)
      || (remote (fetchRequestOf (requestParams req))).status = 404) = false := by
    by_cases h : s = 401
    · rw [h401 h, hs]
      simp [h, h404]
    · rw [hs]
      simp [h, h404]
  have hres := resolve_notOk (requestParams req) remote ho hr hok hcond
  unfold handleRequest
  rw [hres]
  rw [hs]
  rw [respondWith_error_status _ s h0]

/-- C7 (witness): a remote 500 surfaces as 502. -/
theorem c7_status_passthrough_witness :
    (handleRequest { query := [("owner", "o"), ("repo", "r"), ("ref", "main")], headers := [] }
      (fun _ => { status := 500, body := "boom" })).status
    = if 500 ≤ 500 && 500 ≤ 599 then 502 else 500 :=
  c7_status_passthrough
    { query := [("owner", "o"), ("repo", "r"), ("ref", "main")], headers := [] }
    (fun _ => { status := 500, body := "boom" }) 500
    (by decide) (by decide) (by decide) (by decide) (by decide)
    (fun h => absurd h (by decide)) (by decide)

/-- C8: a successful response whose body splits into fewer than 3 lines is a
malformed-response failure carrying no status, and the caller-visible status
is 500. -/
theorem c8_malformed_response (req : InboundRequest)
    (remote : FetchRequest → FetchResponse)
    (ho : jsTruthy (requestParams req).owner = true)
    (hr : jsTruthy (requestParams req).repo = true)
    (hok : respOk (remote (fetchRequestOf (requestParams req))) = true)
    (hlines : (jsSplitOn '\n'
      (remote (fetchRequestOf (requestParams req))).body).length < 3) :
    (resolve (requestParams req) remote).1 =
      .error (.error ("corrupted response: " ++ String.intercalate ","
        (jsSplitOn '\n' (remote (fetchRequestOf (requestParams req))).body)) none) ∧
    (handleRequest req remote).status = 500 := by
  have h1 := resolve_ok (requestParams req) remote ho hr hok
  have h2 : resolveBody (requestParams req)
      (remote (fetchRequestOf (requestParams req))).body =
      .error (.error ("corrupted response: " ++ String.intercalate ","
        (jsSplitOn '\n' (remote (fetchRequestOf (requestParams req))).body)) none) := by
    simp only [resolveBody]
    rw [if_pos hlines]
  have h3 : (resolve (requestParams req) remote).1 =
      .error (.error ("corrupted response: " ++ String.intercalate ","
        (jsSplitOn '\n' (remote (fetchRequestOf (requestParams req))).body)) none) := by
    rw [h1]
    exact h2
  refine ⟨h3, ?_⟩
  unfold handleRequest
  rw [h3, respondWith_error_none]

/-- C8 (witness): a one-line body yields status 500. -/
theorem c8_malformed_response_witness :
    (handleRequest { query := [("owner", "o"), ("repo", "r"), ("ref", "main")], headers := [] }
      (fun _ => { status := 200, body := "only-one-line" })).status = 500 :=
  (c8_malformed_response
    { query := [("owner", "o"), ("repo", "r"), ("ref", "main")], headers := [] }
    (fun _ => { status := 200, body := "only-one-line" })
    (by decide) (by decide) (by decide) (by decide)).2

/-- C9: when no post-header line matches any search term the resolution is
absent and the response is 404 with body `ref not found`; when some line
matches, the first match in advertisement order is returned. -/
theorem c9_no_match_and_first_match (req : InboundRequest)
    (remote : FetchRequest → FetchResponse) (l0 l1 : String)
    (rest terms : List String)
    (ho : jsTruthy (requestParams req).owner = true)
    (hr : jsTruthy (requestParams req).repo = true)
    (hok : respOk (remote (fetchRequestOf (requestParams req))) = true)
    (hbody : jsSplitOn '\n' (remote (fetchRequestOf (requestParams req))).body
      = l0 :: l1 :: rest)
    (hne : rest ≠ [])
    (hterms : termsOf (requestParams req).ref l1 = some terms) :
    (rest.find? (matchRow terms) = none →
      (resolve (requestParams req) remote).1 = .ok none ∧
      handleRequest req remote =
        { status := 404, contentType := "text/plain", body := "ref not found" }) ∧
    (∀ row : String, rest.find? (matchRow terms) = some row →
      (resolve (requestParams req) remote).1 = .ok (some (rowToResult row))) := by
  have h1 := resolve_ok (requestParams req) remote ho hr hok
  have h2 := resolveBody_eq_find (requestParams req) _ l0 l1 rest terms hbody hterms hne
  constructor
  · intro hf
    have h3 : (resolve (requestParams req) remote).1 = .ok none := by
      rw [h1]
      exact h2.trans (by rw [hf]; rfl)
    refine ⟨h3, ?_⟩
    unfold handleRequest
    rw [h3]
    rfl
  · intro row hf
    rw [h1]
    exact h2.trans (by rw [hf]; rfl)

/-- C9 (witness): no advertised line matches the search terms for ref `zzz`,
so the response is 404 `ref not found`. -/
theorem c9_no_match_and_first_match_witness :
    handleRequest { query := [("owner", "o"), ("repo", "r"), ("ref", "zzz")], headers := [] }
      (fun _ => { status := 200, body := "h0\nh1\n0000" }) =
    { status := 404, contentType := "text/plain", body := "ref not found" } :=
  ((c9_no_match_and_first_match
    { query := [("owner", "o"), ("repo", "r"), ("ref", "zzz")], headers := [] }
    (fun _ => { status := 200, body := "h0\nh1\n0000" })
    "h0" "h1" ["0000"] ["refs/heads/zzz", "refs/tags/zzz"]
    (by decide) (by decide) (by decide) (by decide) (by decide) (by decide)).1
    (by decide)).2

/-- C10 (counterexample): with ref absent and a successful 2-line body whose
second line lacks the symref pattern, the corrupted-response check fires
first, so the status is 500, not the claimed 400. -/
theorem c10_counterexample :
    (handleRequest { query := [("owner", "o"), ("repo", "r")], headers := [] }
        (fun _ => { status := 200, body := "a\nb" })).status = 500 ∧
    ¬ (handleRequest { query := [("owner", "o"), ("repo", "r")], headers := [] }
        (fun _ => { status := 200, body := "a\nb" })).status = 400 :=
  ⟨by decide, by decide⟩

/-- C10 (amended): with ref absent or empty, a successful response whose body
splits into at least 3 lines, and no symref pattern in the second line, the
resolver throws a TypeError and the response is 400 carrying its message. -/
theorem c10_missing_symref_typeerror (req : InboundRequest)
    (remote : FetchRequest → FetchResponse) (l0 l1 : String) (rest : List String)
    (ho : jsTruthy (requestParams req).owner = true)
    (hr : jsTruthy (requestParams req).repo = true)
    (href : jsTruthy (requestParams req).ref = false)
    (hok : respOk (remote (fetchRequestOf (requestParams req))) = true)
    (hbody : jsSplitOn '\n' (remote (fetchRequestOf (requestParams req))).body
      = l0 :: l1 :: rest)
    (hne : rest ≠ [])
    (hsym : symrefMatch l1 = none) :
    (resolve (requestParams req) remote).1 =
      .error (.typeError "Cannot read properties of null (reading \x271\x27)") ∧
    handleRequest req remote =
      { status := 400, contentType := "text/plain"
        body := "Cannot read properties of null (reading \x271\x27)" } := by
  have h1 := resolve_ok (requestParams req) remote ho hr hok
  have hterms : termsOf (requestParams req).ref l1 = none := by
    simp [termsOf, href, hsym]
  have h2 : resolveBody (requestParams req)
      (remote (fetchRequestOf (requestParams req))).body =
      .error (.typeError "Cannot read properties of null (reading \x271\x27)") := by
    have hpos : 0 < rest.length := List.length_pos.mpr hne
    simp only [resolveBody]
    rw [hbody]
    rw [if_neg (by simp only [List.length_cons]; omega)]
    have hgd : (l0 :: l1 :: rest).getD 1 "" = l1 := rfl
    rw [hgd, hterms]
  have h3 : (resolve (requestParams req) remote).1 =
      .error (.typeError "Cannot read properties of null (reading \x271\x27)") := by
    rw [h1]
    exact h2
  refine ⟨h3, ?_⟩
  unfold handleRequest
  rw [h3]
  rfl

/-- C10 (witness): a 3-line body without the symref pattern yields 400 with
the TypeError message. -/
theorem c10_missing_symref_typeerror_witness :
    handleRequest { query := [("owner", "o"), ("repo", "r")], headers := [] }
      (fun _ => { status := 200, body := "a\nb\nc" }) =
    { status := 400, contentType := "text/plain"
      body := "Cannot read properties of null (reading \x271\x27)" } :=
  (c10_missing_symref_typeerror
    { query := [("owner", "o"), ("repo", "r")], headers := [] }
    (fun _ => { status := 200, body := "a\nb\nc" })
    "a" "b" ["c"]
    (by decide) (by decide) (by decide) (by decide) (by decide) (by decide)
    (by decide)).2

end GhResolve
